import Mathlib

/-!
Shallow embedding of the solbolt autonomous position lifecycle engine.

JavaScript numbers are modelled as `ℚ` (all arithmetic the claims touch is
exact on the inputs considered), `undefined`-able fields as `Option`,
and JS truthiness tests on numbers (`if (x)`) as `x ≠ 0` on present values.
Wall-clock instants (`Date.now()`, `entryTime.getTime()`) are threaded as
explicit `ℚ` millisecond parameters.
-/

namespace Solbolt

/-! ## Position data model (src/services/position/types.ts) -/

inductive ExitReason where
  | takeProfit
  | stopLoss
  | maxHoldTime
  | manual
  | graduation
  | lowLiquidity
deriving DecidableEq

inductive Urgency where
  | low
  | medium
  | high
deriving DecidableEq

structure PositionConfig where
  takeProfitPercentage : Option ℚ := none
  stopLossPercentage : Option ℚ := none
  maxHoldTime : Option ℚ := none
  trailingStopLoss : Option ℚ := none
deriving DecidableEq

structure PositionData where
  mint : String
  symbol : String
  name : String
  entryPrice : ℚ
  quantity : ℚ
  entryTime : ℚ
  solInvested : ℚ
  takeProfitPrice : Option ℚ := none
  stopLossPrice : Option ℚ := none
  maxHoldTime : Option ℚ := none
  trailingStopPrice : Option ℚ := none
  highWaterMark : Option ℚ := none
  isActive : Bool
  exitReason : Option ExitReason := none
  exitPrice : Option ℚ := none
  exitTime : Option ℚ := none
  transactionSignature : Option String := none
deriving DecidableEq

structure ExitConditionResult where
  shouldExit : Bool
  reason : Option ExitReason := none
  urgency : Urgency
deriving DecidableEq

/-- Model of `Position.createFromBuyResult` (Position.ts).  Note that
`config.trailingStopLoss` is never read: `PositionData` carries no trailing
percentage and `trailingStopPrice` starts out undefined. -/
def createFromBuyResult (mint symbol name : String) (entryPrice quantity solInvested : ℚ)
    (config : PositionConfig) (now : ℚ) (transactionSignature : Option String) : PositionData :=
  { mint := mint
    symbol := symbol
    name := name
    entryPrice := entryPrice
    quantity := quantity
    entryTime := now
    solInvested := solInvested
    takeProfitPrice := config.takeProfitPercentage.map (fun tp => entryPrice * (1 + tp))
    stopLossPrice := config.stopLossPercentage.map (fun sl => entryPrice * (1 - sl))
    maxHoldTime := config.maxHoldTime
    highWaterMark := some entryPrice
    isActive := true
    transactionSignature := transactionSignature }

/-- Model of `Position.getConfig` (Position.ts).  The ternaries
`this.data.takeProfitPrice ? … : undefined` test JS truthiness, so a present
but zero threshold reconstructs to `undefined`.  No `trailingStopLoss` key is
ever produced. -/
def getConfig (p : PositionData) : PositionConfig :=
  { takeProfitPercentage :=
      match p.takeProfitPrice with
      | some tp => if tp = 0 then none else some ((tp - p.entryPrice) / p.entryPrice)
      | none => none
    stopLossPercentage :=
      match p.stopLossPrice with
      | some sl => if sl = 0 then none else some ((p.entryPrice - sl) / p.entryPrice)
      | none => none
    maxHoldTime := p.maxHoldTime }

/-- Model of `Position.updateTrailingStop` (Position.ts).  `if (!config.trailingStopLoss) return`
is falsy on both `undefined` and `0`; the stored stop is replaced when absent,
zero, or exceeded by the new value. -/
def updateTrailingStop (p : PositionData) (currentPrice : ℚ) : PositionData :=
  match (getConfig p).trailingStopLoss with
  | none => p
  | some t =>
    if t = 0 then p
    else
      let newTrailingStop := currentPrice * (1 - t)
      match p.trailingStopPrice with
      | none => { p with trailingStopPrice := some newTrailingStop }
      | some old =>
        if old = 0 ∨ newTrailingStop > old then { p with trailingStopPrice := some newTrailingStop }
        else p

/-- JS guard of shape `this.data.field && cond(field)`: absent or zero values
are falsy. -/
def truthy (o : Option ℚ) (cond : ℚ → Bool) : Bool :=
  match o with
  | none => false
  | some v => if v = 0 then false else cond v

/-- The mutation performed at the start of an active `shouldExit` call
(Position.ts lines 83-87): raise the high-water mark and re-derive the
trailing stop when the price makes a new high
(`currentPrice > (this.data.highWaterMark || 0)`). -/
def shouldExitState (p : PositionData) (currentPrice : ℚ) : PositionData :=
  if currentPrice > p.highWaterMark.getD 0 then
    updateTrailingStop { p with highWaterMark := some currentPrice } currentPrice
  else p

/-- Model of `Position.shouldExit` (Position.ts).  Returns the mutated position
together with the exit decision; the four exit checks run on the mutated
data, first match wins.  The trailing-stop branch reuses reason
`stopLoss`. -/
def shouldExit (p : PositionData) (currentPrice : ℚ) (now : ℚ) :
    PositionData × ExitConditionResult :=
  if p.isActive = false then (p, { shouldExit := false, urgency := .low })
  else
    let p' := shouldExitState p currentPrice
    if truthy p'.takeProfitPrice (fun tp => currentPrice ≥ tp) then
      (p', { shouldExit := true, reason := some .takeProfit, urgency := .high })
    else if truthy p'.stopLossPrice (fun sl => currentPrice ≤ sl) then
      (p', { shouldExit := true, reason := some .stopLoss, urgency := .high })
    else if truthy p'.trailingStopPrice (fun ts => currentPrice ≤ ts) then
      (p', { shouldExit := true, reason := some .stopLoss, urgency := .high })
    else if truthy p'.maxHoldTime (fun mh => (now - p.entryTime) / 1000 ≥ mh) then
      (p', { shouldExit := true, reason := some .maxHoldTime, urgency := .medium })
    else (p', { shouldExit := false, urgency := .low })

/-- A sequence of `shouldExit` calls, each tick a `(currentPrice, now)` pair;
returns the final position state. -/
def runShouldExitSeq (p : PositionData) (ticks : List (ℚ × ℚ)) : PositionData :=
  ticks.foldl (fun st tick => (shouldExit st tick.1 tick.2).1) p

/-- Model of `Position.closePosition` (Position.ts). -/
def closePositionOp (p : PositionData) (exitPrice : ℚ) (reason : ExitReason) (now : ℚ)
    (transactionSignature : Option String) : PositionData :=
  { p with
    isActive := false
    exitPrice := some exitPrice
    exitReason := some reason
    exitTime := some now
    transactionSignature :=
      match transactionSignature with
      | some s => some s
      | none => p.transactionSignature }

/-! ## PositionManager.emergencyCloseAllPositions (PositionManager.ts 246-368)

The method snapshots the active positions and, for each, emits a
`positionExit` signal (reason `manual`, urgency high) and sleeps 2000 ms.
What happens to the position depends entirely on the out-of-scope execution
layer, modelled as an oracle keyed by mint:
- `closes ep r sig`: the layer's exit handler completed a sell during the
  grace wait and called `closePosition` with its own exit price;
- `ignores`: the layer did nothing — the loop body ends with the position
  untouched;
- `emitThrows`: emitting the signal threw, so the `catch` block force-closes
  at the *entry* price with reason `manual` (PositionManager.ts 359-364). -/

inductive ExecResponse where
  | closes (exitPrice : ℚ) (reason : ExitReason) (sig : Option String)
  | ignores
  | emitThrows
deriving DecidableEq

def emergencyCloseOne (now : ℚ) (r : ExecResponse) (p : PositionData) : PositionData :=
  match r with
  | .closes ep reason sig => closePositionOp p ep reason now sig
  | .ignores => p
  | .emitThrows => closePositionOp p p.entryPrice .manual now none

def emergencyCloseAllPositions (now : ℚ) (oracle : String → ExecResponse)
    (positions : List PositionData) : List PositionData :=
  positions.map (fun p => if p.isActive then emergencyCloseOne now (oracle p.mint) p else p)

/-- Placeholder default for `List.getD` position lookups. -/
def pdummy : PositionData :=
  { mint := "", symbol := "", name := "", entryPrice := 0, quantity := 0,
    entryTime := 0, solInvested := 0, isActive := false }

/-! ## Bonding curve state parser (src/unnamed parts 008/009)

Buffers are byte lists.  `Buffer.subarray` clamps to the buffer length, and
`new PublicKey(bytes)` accepts any array of at most 32 bytes, so the creator
field is modelled as the raw clamped byte slice. -/

def BONDING_CURVE_DISCRIMINATOR : List ℕ :=
  [0x17, 0xb7, 0xd1, 0x36, 0x28, 0x18, 0x5a, 0x60]

inductive CurveError where
  | tooShort (len : ℕ)
  | invalidDiscriminator
  | insufficientLength (len : ℕ)
  | invalidReserves
deriving DecidableEq

structure BondingCurveState where
  virtualTokenReserves : ℤ
  virtualSolReserves : ℤ
  realTokenReserves : ℤ
  realSolReserves : ℤ
  tokenTotalSupply : ℤ
  complete : Bool
  creator : List ℕ
deriving DecidableEq

/-- Model of `Buffer.readBigUInt64LE` at a given offset (in-range whenever the
caller's length check passed). -/
def readBigUInt64LE (data : List ℕ) (offset : ℕ) : ℕ :=
  data.getD offset 0
    + 256 * data.getD (offset + 1) 0
    + 256 ^ 2 * data.getD (offset + 2) 0
    + 256 ^ 3 * data.getD (offset + 3) 0
    + 256 ^ 4 * data.getD (offset + 4) 0
    + 256 ^ 5 * data.getD (offset + 5) 0
    + 256 ^ 6 * data.getD (offset + 6) 0
    + 256 ^ 7 * data.getD (offset + 7) 0

/-- Model of `BondingCurveStateParser.parse`.  The length check before the field reads
is `requiredLength = 8 + 8 + 8 + 8 + 8 + 8 + 1 = 49` — it does not include
the 32-byte creator field that the parser goes on to read (clamped). -/
def parse (data : List ℕ) : Except CurveError BondingCurveState :=
  if data.length < 8 then .error (.tooShort data.length)
  else if data.take 8 ≠ BONDING_CURVE_DISCRIMINATOR then .error .invalidDiscriminator
  else if data.length < 49 then .error (.insufficientLength data.length)
  else .ok
    { virtualTokenReserves := readBigUInt64LE data 8
      virtualSolReserves := readBigUInt64LE data 16
      realTokenReserves := readBigUInt64LE data 24
      realSolReserves := readBigUInt64LE data 32
      tokenTotalSupply := readBigUInt64LE data 40
      complete := data.getD 48 0 ≠ 0
      creator := (data.drop 49).take 32 }

def LAMPORTS_PER_SOL : ℚ := 1000000000

def TOKEN_DECIMALS : ℕ := 6

/-- Model of `BondingCurveStateParser.calculatePrice`. -/
def calculatePrice (state : BondingCurveState) : Except CurveError ℚ :=
  if state.virtualTokenReserves ≤ 0 ∨ state.virtualSolReserves ≤ 0 then
    .error .invalidReserves
  else
    .ok (((state.virtualSolReserves : ℚ) / LAMPORTS_PER_SOL) /
      ((state.virtualTokenReserves : ℚ) / 10 ^ TOKEN_DECIMALS))

/-! ## Priority fee plugin chain (src/services/priorityFee) -/

/-- Fuel-bounded base-2 logarithm; `log2F n n` equals `⌊log₂ n⌋` for every
`n ≥ 1` (the recursion depth is at most `⌊log₂ n⌋ + 1 ≤ n`), written with
structural recursion so that it evaluates inside the kernel. -/
def log2F : ℕ → ℕ → ℕ
  | 0, _ => 0
  | fuel + 1, n => if 2 ≤ n then log2F fuel (n / 2) + 1 else 0

/-- Model of `Math.floor(fees.length * 0.70)` (dynamicFee.ts line 39) with
exact IEEE-754 binary64 semantics.  The double nearest to `0.70` is
`6305039478318694 / 2^53`, so the real product is `M / 2^53` with
`M = n * 6305039478318694`; the multiplication rounds it to 53 significant
bits (round to nearest, ties to even), i.e. to an integer multiple of
`2^(E - 53)` … `2^E / 2^53` with `E = ⌊log₂ M⌋ - 52`, and `Math.floor`
then truncates.  Every JS array length (`n < 2^32`) is exactly
representable and the product stays far below the overflow threshold, so
this covers the whole domain of the source expression.  The result differs
from the exact `⌊0.7 n⌋` at lengths such as `n = 170`, where the product
`119 - 68/2^53` rounds to one ulp below 119 and the floor is 118. -/
def percentileIndexJS (n : ℕ) : ℕ :=
  let M := n * 6305039478318694
  let E := log2F M M - 52
  let s :=
    if E = 0 then M
    else
      let q := M / 2 ^ E
      let r := M % 2 ^ E
      let half := 2 ^ (E - 1)
      if r < half then q
      else if half < r then q + 1
      else if q % 2 = 0 then q else q + 1
  s * 2 ^ E / 2 ^ 53

/-- Model of `DynamicPriorityFee.getPriorityFee` (dynamicFee.ts), applied to the list
of observed fees: `null` when no samples, otherwise
`fees.sort(asc)[Math.floor(fees.length * 0.70)] || 0`, the index computed
in binary64 arithmetic by `percentileIndexJS`. -/
def dynamicGetPriorityFee (fees : List ℚ) : Option ℚ :=
  if fees.length = 0 then none
  else
    let sorted := fees.insertionSort (· ≤ ·)
    let percentileIndex := percentileIndexJS fees.length
    some (sorted.getD percentileIndex 0)

/-- Modelled from the spec (§4.3/§8): the 70th-percentile with linear
interpolation — rank `0.7 × (n − 1)` over the ascending-sorted samples,
interpolating between the two bracketing samples when the rank is
fractional.  Used only to compare the spec's formula against
`dynamicGetPriorityFee`. -/
def specInterpolatedPercentile70 (fees : List ℚ) : Option ℚ :=
  if fees.length = 0 then none
  else
    let sorted := fees.insertionSort (· ≤ ·)
    let lower := 7 * (fees.length - 1) / 10
    let frac : ℚ := (7 : ℚ) / 10 * ((fees.length : ℚ) - 1) - (lower : ℚ)
    some (sorted.getD lower 0 + frac * (sorted.getD (lower + 1) 0 - sorted.getD lower 0))

structure PriorityFeeConfig where
  enableDynamicFee : Bool
  enableFixedFee : Bool
  fixedFee : ℚ
  extraFeePercentage : ℚ
  hardCap : ℚ
deriving DecidableEq

/-- Model of `FixedPriorityFee.getPriorityFee` (fixedFee.ts). -/
def fixedGetPriorityFee (fixedFee : ℚ) : Option ℚ :=
  if fixedFee = 0 then none else some fixedFee

/-- The tail of `PriorityFeeManager.getBaseFee` (manager.ts 91-101): the
fixed-fee plugin when enabled and its result truthy and positive, else the
200000 emergency fallback.  Reached from three fall-through points of
`getBaseFee`. -/
def fixedFeeFallback (cfg : PriorityFeeConfig) : ℚ :=
  if cfg.enableFixedFee then
    match fixedGetPriorityFee cfg.fixedFee with
    | some f => if f ≠ 0 ∧ 0 < f then f else 200000
    | none => 200000
  else 200000

/-- Model of `PriorityFeeManager.getBaseFee` (manager.ts 74-102), with the dynamic
plugin's network answer passed in as `dynamicFee`. -/
def getBaseFee (cfg : PriorityFeeConfig) (dynamicFee : Option ℚ) : ℚ :=
  if cfg.enableDynamicFee then
    match dynamicFee with
    | some d =>
      if 0 < d then d
      else if d = 0 then 100000
      else fixedFeeFallback cfg
    | none => fixedFeeFallback cfg
  else fixedFeeFallback cfg

/-! ## RPC rate limiter (src/unnamed part_006) -/

structure RateLimiterConfig where
  requestsPerSecond : ℕ
  burstLimit : ℕ
  retryDelay : ℕ
  maxRetries : ℕ
deriving DecidableEq

/-- Outcome the wrapped operation would produce on a given attempt; errors
carry the `is429Error` classification of the thrown value. -/
inductive RPCOutcome (α : Type) where
  | ok (v : α)
  | err (is429 : Bool)

/-- What `executeRPCCall` ultimately throws. -/
inductive RPCFailure where
  | nullThrown
  | thrown (is429 : Bool)
deriving DecidableEq

/-- The retry loop of `RPCRateLimiter.executeRPCCall` (part_006 lines 60-91),
with `fuel` the number of attempts left (`executeRPCCall` starts it at
`maxRetries`).  Second component: the backoff delays slept, in order.
A 429 on the final attempt exits the loop without sleeping and the last
error is rethrown; a non-429 error is rethrown immediately. -/
def executeLoop (cfg : RateLimiterConfig) (call : ℕ → RPCOutcome α) :
    ℕ → ℕ → Except RPCFailure α × List ℕ
  | _, 0 => (.error .nullThrown, [])
  | attempt, fuel + 1 =>
    match call attempt with
    | .ok v => (.ok v, [])
    | .err true =>
      if attempt < cfg.maxRetries then
        let delay := cfg.retryDelay * 2 ^ (attempt - 1)
        let rest := executeLoop cfg call (attempt + 1) fuel
        (rest.1, delay :: rest.2)
      else (.error (.thrown true), [])
    | .err false => (.error (.thrown false), [])

/-- Model of `RPCRateLimiter.executeRPCCall`: `for (attempt = 1; attempt <= maxRetries; …)`. -/
def executeRPCCall (cfg : RateLimiterConfig) (call : ℕ → RPCOutcome α) :
    Except RPCFailure α × List ℕ :=
  executeLoop cfg call 1 cfg.maxRetries

/-- Model of `RPCRateLimiter.waitForRateLimit` (part_006 lines 30-49) on a model clock:
given the stored request timestamps and the current time, returns the updated
timestamp list and the instant at which the call proceeds (after any sleep).
`Math.min` of an empty spread is `+∞`, making the wait negative, hence the
`none => no sleep` arm. -/
def waitForRateLimit (requestsPerSecond : ℕ) (requestTimes : List ℤ) (now : ℤ) :
    List ℤ × ℤ :=
  let ts := requestTimes.filter (fun t => decide (now - t < 1000))
  if requestsPerSecond ≤ ts.length then
    match ts.min? with
    | some oldest =>
      let waitTime := 1000 - (now - oldest)
      let now2 := if 0 < waitTime then now + waitTime else now
      (ts ++ [now2], now2)
    | none => (ts ++ [now], now)
  else (ts ++ [now], now)

/-! ## Concrete instances used by counterexamples and witnesses -/

def c1pos : PositionData :=
  { mint := "mintA", symbol := "A", name := "TokenA", entryPrice := 1, quantity := 100,
    entryTime := 0, solInvested := 1, highWaterMark := some 1, isActive := true }

def c1woracle : String → ExecResponse := fun _ => ExecResponse.closes 2 ExitReason.manual none

def c3buf : List ℕ := BONDING_CURVE_DISCRIMINATOR ++ List.replicate 41 0

def c5cfg : PriorityFeeConfig :=
  { enableDynamicFee := true, enableFixedFee := true, fixedFee := 5000,
    extraFeePercentage := 0, hardCap := 1000000 }

def c6pos : PositionData :=
  { mint := "m", symbol := "S", name := "N", entryPrice := 1, quantity := 10,
    entryTime := 0, solInvested := 1, highWaterMark := some 1,
    trailingStopPrice := some (9/10), isActive := true }

def c7pos : PositionData :=
  { mint := "m", symbol := "S", name := "N", entryPrice := 0, quantity := 1,
    entryTime := 0, solInvested := 1, takeProfitPrice := some 0, stopLossPrice := some 5,
    highWaterMark := some 0, isActive := true }

def c7wpos : PositionData :=
  { mint := "m", symbol := "S", name := "N", entryPrice := 1, quantity := 1,
    entryTime := 0, solInvested := 1, takeProfitPrice := some 2, stopLossPrice := some 5,
    highWaterMark := some 1, isActive := true }

def c8call : ℕ → RPCOutcome ℕ := fun n => if n ≤ 1 then RPCOutcome.err true else RPCOutcome.ok 7

def c10state : BondingCurveState :=
  { virtualTokenReserves := 2000000, virtualSolReserves := 3000000000,
    realTokenReserves := 0, realSolReserves := 0, tokenTotalSupply := 0,
    complete := false, creator := [] }

/-! ## Helper lemmas about the position state machine -/

/-- Because `getConfig` never reconstructs a `trailingStopLoss` percentage,
`updateTrailingStop` is the identity on every position. -/
theorem updateTrailingStop_eq_self (p : PositionData) (c : ℚ) : updateTrailingStop p c = p := rfl

theorem shouldExitState_eq (p : PositionData) (c : ℚ) :
    shouldExitState p c =
      if c > p.highWaterMark.getD 0 then { p with highWaterMark := some c } else p := by
  unfold shouldExitState
  rw [updateTrailingStop_eq_self]

theorem shouldExit_fst (p : PositionData) (c t : ℚ) :
    (shouldExit p c t).1 = if p.isActive = false then p else shouldExitState p c := by
  unfold shouldExit
  split
  · rfl
  · dsimp only
    split
    · rfl
    · split
      · rfl
      · split
        · rfl
        · split <;> rfl

theorem shouldExit_fst_trailing (p : PositionData) (c t : ℚ) :
    (shouldExit p c t).1.trailingStopPrice = p.trailingStopPrice := by
  rw [shouldExit_fst]
  split
  · rfl
  · rw [shouldExitState_eq]
    split <;> rfl

theorem runSeq_trailing (ticks : List (ℚ × ℚ)) :
    ∀ p : PositionData, (runShouldExitSeq p ticks).trailingStopPrice = p.trailingStopPrice := by
  induction ticks with
  | nil => intro p; rfl
  | cons t ts ih =>
    intro p
    show (runShouldExitSeq (shouldExit p t.1 t.2).1 ts).trailingStopPrice = _
    rw [ih, shouldExit_fst_trailing]

theorem shouldExit_fst_hwm (p : PositionData) (c t : ℚ) (h : ℚ)
    (hh : p.highWaterMark = some h) :
    ∃ h', (shouldExit p c t).1.highWaterMark = some h' ∧ h ≤ h' := by
  rw [shouldExit_fst]
  split
  · exact ⟨h, hh, le_refl h⟩
  · rw [shouldExitState_eq]
    split
    · refine ⟨c, rfl, ?_⟩
      rename_i hgt
      rw [hh] at hgt
      exact le_of_lt hgt
    · exact ⟨h, hh, le_refl h⟩

theorem runSeq_hwm (ticks : List (ℚ × ℚ)) :
    ∀ (p : PositionData) (h : ℚ), p.highWaterMark = some h →
      ∃ h', (runShouldExitSeq p ticks).highWaterMark = some h' ∧ h ≤ h' := by
  induction ticks with
  | nil => intro p h hh; exact ⟨h, hh, le_refl h⟩
  | cons t ts ih =>
    intro p h hh
    obtain ⟨h1, hh1, hle1⟩ := shouldExit_fst_hwm p t.1 t.2 h hh
    obtain ⟨h2, hh2, hle2⟩ := ih (shouldExit p t.1 t.2).1 h1 hh1
    exact ⟨h2, hh2, le_trans hle1 hle2⟩

theorem shouldExitState_takeProfit (p : PositionData) (c : ℚ) :
    (shouldExitState p c).takeProfitPrice = p.takeProfitPrice := by
  rw [shouldExitState_eq]
  split <;> rfl

theorem emergency_getD (now : ℚ) (oracle : String → ExecResponse) (ps : List PositionData)
    (i : ℕ) (hi : i < ps.length) :
    (emergencyCloseAllPositions now oracle ps).getD i pdummy =
      (if (ps.getD i pdummy).isActive then
        emergencyCloseOne now (oracle (ps.getD i pdummy).mint) (ps.getD i pdummy)
      else ps.getD i pdummy) := by
  unfold emergencyCloseAllPositions
  rw [List.getD_eq_getElem _ _ (by simpa using hi), List.getD_eq_getElem _ _ hi,
    List.getElem_map]

/-! ## Helper lemmas about the retry loop -/

theorem executeLoop_ok_step {α : Type} (cfg : RateLimiterConfig) (call : ℕ → RPCOutcome α)
    (attempt fuel : ℕ) (v : α) (h : call attempt = RPCOutcome.ok v) :
    executeLoop cfg call attempt (fuel + 1) = (Except.ok v, []) := by
  simp only [executeLoop, h]

theorem executeLoop_err429_step {α : Type} (cfg : RateLimiterConfig) (call : ℕ → RPCOutcome α)
    (attempt fuel : ℕ) (h : call attempt = RPCOutcome.err true) :
    executeLoop cfg call attempt (fuel + 1) =
      if attempt < cfg.maxRetries then
        ((executeLoop cfg call (attempt + 1) fuel).1,
          cfg.retryDelay * 2 ^ (attempt - 1) :: (executeLoop cfg call (attempt + 1) fuel).2)
      else (Except.error (RPCFailure.thrown true), []) := by
  simp only [executeLoop, h]

theorem executeLoop_errOther_step {α : Type} (cfg : RateLimiterConfig) (call : ℕ → RPCOutcome α)
    (attempt fuel : ℕ) (h : call attempt = RPCOutcome.err false) :
    executeLoop cfg call attempt (fuel + 1) = (Except.error (RPCFailure.thrown false), []) := by
  simp only [executeLoop, h]

/-- Running the loop across a block of `k` consecutive rate-limited attempts
accumulates the corresponding exponential-backoff delays. -/
theorem executeLoop_skip {α : Type} (cfg : RateLimiterConfig) (call : ℕ → RPCOutcome α) :
    ∀ (k attempt fuel : ℕ), k < fuel → attempt + fuel = cfg.maxRetries + 1 →
      (∀ i, attempt ≤ i → i < attempt + k → call i = RPCOutcome.err true) →
      executeLoop cfg call attempt fuel =
        ((executeLoop cfg call (attempt + k) (fuel - k)).1,
          (List.range' attempt k).map (fun i => cfg.retryDelay * 2 ^ (i - 1)) ++
            (executeLoop cfg call (attempt + k) (fuel - k)).2) := by
  intro k
  induction k with
  | zero =>
    intro attempt fuel _ _ _
    simp
  | succ k ih =>
    intro attempt fuel hk hsum hpre
    obtain ⟨f, rfl⟩ : ∃ f, fuel = f + 1 := ⟨fuel - 1, by omega⟩
    have hfirst : call attempt = RPCOutcome.err true := hpre attempt le_rfl (by omega)
    have hlt : attempt < cfg.maxRetries := by omega
    rw [executeLoop_err429_step cfg call attempt f hfirst, if_pos hlt]
    have ih' := ih (attempt + 1) f (by omega) (by omega)
      (fun i h1 h2 => hpre i (by omega) (by omega))
    rw [ih']
    have h1 : attempt + (k + 1) = attempt + 1 + k := by omega
    have h2 : f + 1 - (k + 1) = f - k := by omega
    rw [h1, h2]
    have h3 : List.range' attempt (k + 1) = attempt :: List.range' (attempt + 1) k := by
      simp [List.range']
    rw [h3]
    simp

/-! ## Claim theorems -/

/-- Claim C1 (corrected): the counterexample.  One active position, the
execution layer neither closes it during the grace wait nor throws — after
`emergencyCloseAllPositions` returns, the position is unchanged and still
reports `isActive = true`, contradicting the claim that every position then
reports `isActive = false`. -/
theorem emergencyClose_ignored_position_stays_active_cex :
    emergencyCloseAllPositions 0 (fun _ => ExecResponse.ignores) [c1pos] = [c1pos]
    ∧ c1pos.isActive = true := by
  decide

/-- Claim C1, amended: after `emergencyCloseAllPositions` returns, a position
the execution layer closed during the 2-second grace wait reports
`isActive = false` with the execution layer's exit price and reason; a
position whose exit-signal emission threw is force-closed at its *entry*
price with reason `Manual`; a position the execution layer ignored (and whose
signal did not throw) remains active; inactive positions are untouched. -/
theorem emergencyClose_leaves_unconfirmed_active :
    ∀ (now : ℚ) (oracle : String → ExecResponse) (ps : List PositionData) (i : ℕ),
      i < ps.length →
      ((ps.getD i pdummy).isActive = false →
        (emergencyCloseAllPositions now oracle ps).getD i pdummy = ps.getD i pdummy)
      ∧ ((ps.getD i pdummy).isActive = true →
        (oracle (ps.getD i pdummy).mint = ExecResponse.ignores →
          (emergencyCloseAllPositions now oracle ps).getD i pdummy = ps.getD i pdummy)
        ∧ (∀ (ep : ℚ) (reason : ExitReason) (sig : Option String),
            oracle (ps.getD i pdummy).mint = ExecResponse.closes ep reason sig →
            ((emergencyCloseAllPositions now oracle ps).getD i pdummy).isActive = false
            ∧ ((emergencyCloseAllPositions now oracle ps).getD i pdummy).exitPrice = some ep
            ∧ ((emergencyCloseAllPositions now oracle ps).getD i pdummy).exitReason = some reason)
        ∧ (oracle (ps.getD i pdummy).mint = ExecResponse.emitThrows →
          ((emergencyCloseAllPositions now oracle ps).getD i pdummy).isActive = false
          ∧ ((emergencyCloseAllPositions now oracle ps).getD i pdummy).exitPrice =
              some (ps.getD i pdummy).entryPrice
          ∧ ((emergencyCloseAllPositions now oracle ps).getD i pdummy).exitReason =
              some ExitReason.manual)) := by
  intro now oracle ps i hi
  rw [emergency_getD now oracle ps i hi]
  constructor
  · intro hina
    rw [hina]
    rfl
  · intro hact
    rw [hact]
    simp only [if_true]
    refine ⟨?_, ?_, ?_⟩
    · intro hig
      rw [hig]
      rfl
    · intro ep reason sig hcl
      rw [hcl]
      unfold emergencyCloseOne closePositionOp
      exact ⟨rfl, rfl, rfl⟩
    · intro hth
      rw [hth]
      unfold emergencyCloseOne closePositionOp
      exact ⟨rfl, rfl, rfl⟩

/-- Claim C1 witness: an execution layer that confirms the sell at price 2
leaves the position closed with exit price 2 and reason `Manual`. -/
theorem emergencyClose_amended_witness :
    ((emergencyCloseAllPositions 0 c1woracle [c1pos]).getD 0 pdummy).isActive = false
    ∧ ((emergencyCloseAllPositions 0 c1woracle [c1pos]).getD 0 pdummy).exitPrice = some 2
    ∧ ((emergencyCloseAllPositions 0 c1woracle [c1pos]).getD 0 pdummy).exitReason =
        some ExitReason.manual :=
  ((emergencyClose_leaves_unconfirmed_active 0 c1woracle [c1pos] 0 (by decide)).2
    (by decide)).2.1 2 ExitReason.manual none rfl

/-- Claim C2 (confirmed): for every position created through
`createFromBuyResult` — even when `config.trailingStopLoss` is supplied —
`trailingStopPrice` remains undefined across every sequence of `shouldExit`
calls, so the trailing-stop exit guard (`trailingStopPrice` truthy and
`currentPrice ≤ trailingStopPrice`) is false at every price and the
trailing-stop branch can never fire. -/
theorem trailingStop_never_set_from_buyResult :
    ∀ (mint symbol name : String) (entryPrice quantity solInvested : ℚ)
      (config : PositionConfig) (now : ℚ) (sig : Option String) (ticks : List (ℚ × ℚ)),
      (runShouldExitSeq
          (createFromBuyResult mint symbol name entryPrice quantity solInvested config now sig)
          ticks).trailingStopPrice = none
      ∧ ∀ price : ℚ,
          truthy (runShouldExitSeq
              (createFromBuyResult mint symbol name entryPrice quantity solInvested config now sig)
              ticks).trailingStopPrice (fun ts => price ≤ ts) = false := by
  intro mint symbol name entryPrice quantity solInvested config now sig ticks
  have h := runSeq_trailing ticks
    (createFromBuyResult mint symbol name entryPrice quantity solInvested config now sig)
  constructor
  · exact h
  · intro price
    rw [h]
    rfl

/-- Claim C3 (corrected): the counterexample.  A 49-byte buffer carrying the
valid discriminator — shorter than the 73 bytes the claim requires to be
rejected — parses successfully into a fully populated state (with an empty
creator byte slice), because the parser's length check only demands 49
bytes. -/
theorem parse_accepts_49_byte_buffer_cex :
    c3buf.take 8 = BONDING_CURVE_DISCRIMINATOR ∧ c3buf.length = 49 ∧ c3buf.length < 73
    ∧ parse c3buf = Except.ok
        { virtualTokenReserves := 0, virtualSolReserves := 0, realTokenReserves := 0,
          realSolReserves := 0, tokenTotalSupply := 0, complete := false, creator := [] } :=
  ⟨by decide, by decide, by decide, rfl⟩

/-- Claim C3, amended: every byte buffer that begins with the valid 8-byte
discriminator but is shorter than 49 bytes fails with the insufficient-length
(`TruncatedRecord`) error and never produces a `BondingCurveState`. -/
theorem parse_truncated_below_49 :
    ∀ data : List ℕ, data.take 8 = BONDING_CURVE_DISCRIMINATOR → data.length < 49 →
      parse data = Except.error (CurveError.insufficientLength data.length) := by
  intro data hdisc hlen
  have h8 : ¬data.length < 8 := by
    intro hlt
    have : (data.take 8).length = data.length := by
      rw [List.length_take]
      omega
    rw [hdisc] at this
    simp [BONDING_CURVE_DISCRIMINATOR] at this
    omega
  unfold parse
  rw [if_neg h8, if_neg (by rw [hdisc]; simp), if_pos hlen]

/-- Claim C3 witness: a 9-byte buffer with the valid discriminator is
rejected with the insufficient-length error. -/
theorem parse_truncated_witness :
    (BONDING_CURVE_DISCRIMINATOR ++ [0]).take 8 = BONDING_CURVE_DISCRIMINATOR
    ∧ parse (BONDING_CURVE_DISCRIMINATOR ++ [0]) =
        Except.error (CurveError.insufficientLength (BONDING_CURVE_DISCRIMINATOR ++ [0]).length) :=
  ⟨by decide, parse_truncated_below_49 _ (by decide) (by decide)⟩

/-- Claim C4 (corrected): the counterexample.  On the six observations
`[0,0,0,0,10,10]` the plugin returns 10 (the element at index
`⌊6 × 0.7⌋ = 4` of the sorted list), while the claimed interpolated 70th
percentile is 5 — so the plugin does not linearly interpolate. -/
theorem dynamicFee_interpolation_cex :
    dynamicGetPriorityFee [0, 0, 0, 0, 10, 10] = some 10
    ∧ specInterpolatedPercentile70 [0, 0, 0, 0, 10, 10] = some 5
    ∧ (10 : ℚ) ≠ 5 := by
  refine ⟨by decide, ?_, by norm_num⟩
  have hsort : ([0, 0, 0, 0, 10, 10] : List ℚ).insertionSort (· ≤ ·) = [0, 0, 0, 0, 10, 10] := by
    decide
  simp only [specInterpolatedPercentile70, hsort]
  norm_num [List.getD]

/-- Claim C4, amended: for every non-empty fee list the plugin returns the
element of the ascending-sorted list at index `Math.floor(n × 0.70)` as
computed in IEEE doubles (`percentileIndexJS`), with no interpolation — in
particular `some 4` for `[1,2,3,4,5]`, the element itself for a singleton,
and `none` for the empty list.  The double index equals `⌊0.7 n⌋` on small
lengths (3 for n = 5) but not universally: at n = 170 it is 118, one below
the exact `⌊0.7 × 170⌋ = 119`. -/
theorem dynamicFee_percentile_no_interpolation :
    dynamicGetPriorityFee ([] : List ℚ) = none
    ∧ (∀ x : ℚ, dynamicGetPriorityFee [x] = some x)
    ∧ dynamicGetPriorityFee [1, 2, 3, 4, 5] = some 4
    ∧ (∀ fees : List ℚ, fees ≠ [] →
        ∃ s : List ℚ, s.Perm fees ∧ s.Sorted (· ≤ ·)
          ∧ dynamicGetPriorityFee fees = some (s.getD (percentileIndexJS fees.length) 0))
    ∧ percentileIndexJS 5 = 3
    ∧ percentileIndexJS 170 = 118 ∧ 170 * 7 / 10 = 119 := by
  refine ⟨rfl, ?_, by decide, ?_, by decide, by decide, by decide⟩
  · intro x
    have hidx : percentileIndexJS 1 = 0 := by decide
    show some (([x].insertionSort (· ≤ ·)).getD (percentileIndexJS 1) 0) = some x
    rw [hidx]
    rfl
  · intro fees hne
    refine ⟨fees.insertionSort (· ≤ ·), List.perm_insertionSort _ fees,
      List.sorted_insertionSort _ fees, ?_⟩
    unfold dynamicGetPriorityFee
    rw [if_neg (by simpa using hne)]

/-- Claim C4 witness: instances of the singleton and the sorted-selection
parts of the amended claim. -/
theorem dynamicFee_percentile_witness :
    dynamicGetPriorityFee [7] = some 7
    ∧ ∃ s : List ℚ, s.Perm [5, 1] ∧ s.Sorted (· ≤ ·)
        ∧ dynamicGetPriorityFee [5, 1] = some (s.getD (percentileIndexJS ([5, 1] : List ℚ).length) 0) :=
  ⟨dynamicFee_percentile_no_interpolation.2.1 7,
   dynamicFee_percentile_no_interpolation.2.2.2.1 [5, 1] (by simp)⟩

/-- Claim C5 (corrected): the counterexample.  With the dynamic plugin
enabled, the fixed plugin enabled, and a usable fixed constant of 5000, a
dynamic result of 0 yields the hard-coded 100000 minimum, not the fixed
constant the claim requires. -/
theorem getBaseFee_zero_dynamic_cex :
    getBaseFee c5cfg (some 0) = 100000 ∧ getBaseFee c5cfg (some 0) ≠ c5cfg.fixedFee := by
  refine ⟨by decide, ?_⟩
  intro h
  rw [show getBaseFee c5cfg (some 0) = 100000 from by decide] at h
  exact absurd h (by decide)

/-- Claim C5, amended: with the dynamic plugin enabled, a dynamic result of
`null` falls back to the fixed configured constant when the fixed plugin is
enabled and its fee positive, and otherwise to the hard-coded 200000
emergency constant; a dynamic result of 0 short-circuits to the hard-coded
100000 minimum instead of the fixed constant. -/
theorem getBaseFee_fallback_chain :
    ∀ cfg : PriorityFeeConfig, cfg.enableDynamicFee = true →
      getBaseFee cfg (some 0) = 100000
      ∧ (cfg.enableFixedFee = true → 0 < cfg.fixedFee → getBaseFee cfg none = cfg.fixedFee)
      ∧ (cfg.enableFixedFee = false → getBaseFee cfg none = 200000)
      ∧ (cfg.fixedFee = 0 → getBaseFee cfg none = 200000) := by
  intro cfg hdyn
  refine ⟨?_, ?_, ?_, ?_⟩
  · unfold getBaseFee
    rw [hdyn]
    simp
  · intro hfix hpos
    unfold getBaseFee fixedFeeFallback fixedGetPriorityFee
    rw [hdyn, hfix]
    simp only [if_true]
    rw [if_neg (ne_of_gt hpos)]
    simp only [if_true]
    rw [if_pos ⟨ne_of_gt hpos, hpos⟩]
  · intro hfix
    unfold getBaseFee fixedFeeFallback
    rw [hdyn, hfix]
    simp
  · intro hzero
    unfold getBaseFee fixedFeeFallback fixedGetPriorityFee
    rw [hdyn, hzero]
    simp

/-- Claim C5 witness: the amended fallback chain evaluated on the concrete
configuration with fixed fee 5000. -/
theorem getBaseFee_fallback_witness :
    getBaseFee c5cfg (some 0) = 100000 ∧ getBaseFee c5cfg none = c5cfg.fixedFee :=
  ⟨(getBaseFee_fallback_chain c5cfg rfl).1,
   (getBaseFee_fallback_chain c5cfg rfl).2.1 rfl (by norm_num [c5cfg])⟩

/-- Claim C6 (confirmed): across any sequence of `shouldExit` calls,
`highWaterMark` never decreases, and once `trailingStopPrice` is set it never
decreases (it in fact never changes), even across price ticks that drop below
a previous high. -/
theorem hwm_trailing_monotone :
    ∀ (p : PositionData) (ticks : List (ℚ × ℚ)),
      (∀ h : ℚ, p.highWaterMark = some h →
        ∃ h', (runShouldExitSeq p ticks).highWaterMark = some h' ∧ h ≤ h')
      ∧ (∀ t : ℚ, p.trailingStopPrice = some t →
        ∃ t', (runShouldExitSeq p ticks).trailingStopPrice = some t' ∧ t ≤ t') := by
  intro p ticks
  constructor
  · exact fun h hh => runSeq_hwm ticks p h hh
  · intro t ht
    exact ⟨t, by rw [runSeq_trailing ticks p, ht], le_refl t⟩

/-- Claim C6 witness: a position with high-water mark 1 and trailing stop
9/10, ticked at prices 2 then 3/2. -/
theorem hwm_trailing_monotone_witness :
    (∃ h', (runShouldExitSeq c6pos [(2, 0), (3/2, 0)]).highWaterMark = some h' ∧ (1 : ℚ) ≤ h')
    ∧ (∃ t', (runShouldExitSeq c6pos [(2, 0), (3/2, 0)]).trailingStopPrice = some t'
        ∧ (9/10 : ℚ) ≤ t') :=
  ⟨(hwm_trailing_monotone c6pos [(2, 0), (3/2, 0)]).1 1 rfl,
   (hwm_trailing_monotone c6pos [(2, 0), (3/2, 0)]).2 (9/10) rfl⟩

/-- Claim C7 (corrected): the counterexample.  A position whose
`takeProfitPrice` is configured but equal to 0 (JS-falsy) and whose
`stopLossPrice` is 5, at price 0, satisfies both the take-profit and the
stop-loss conditions, yet `shouldExit` reports `StopLoss`, not the
`TakeProfit` the claim requires. -/
theorem takeProfit_zero_threshold_cex :
    c7pos.isActive = true ∧ c7pos.takeProfitPrice = some 0 ∧ c7pos.stopLossPrice = some 5
    ∧ (0 : ℚ) ≥ 0 ∧ (0 : ℚ) ≤ 5
    ∧ (shouldExit c7pos 0 0).2.reason = some ExitReason.stopLoss
    ∧ (shouldExit c7pos 0 0).2.reason ≠ some ExitReason.takeProfit := by
  decide

/-- Claim C7, amended: for every active position with a *nonzero*
`takeProfitPrice` and a configured `stopLossPrice`, every price satisfying
both the take-profit and stop-loss conditions reports `TakeProfit` with high
urgency, because the take-profit check runs first (a zero threshold is
treated as unconfigured by the JS truthiness guard). -/
theorem takeProfit_priority_over_stopLoss :
    ∀ (p : PositionData) (c now tp sl : ℚ), p.isActive = true →
      p.takeProfitPrice = some tp → tp ≠ 0 → p.stopLossPrice = some sl →
      tp ≤ c → c ≤ sl →
      (shouldExit p c now).2 =
        { shouldExit := true, reason := some ExitReason.takeProfit, urgency := Urgency.high } := by
  intro p c now tp sl hact htp htp0 hsl hc hcs
  unfold shouldExit
  rw [hact]
  simp only [Bool.true_eq_false, if_false]
  have hguard : truthy (shouldExitState p c).takeProfitPrice (fun tp => c ≥ tp) = true := by
    rw [shouldExitState_takeProfit, htp]
    show (if tp = 0 then false else decide (c ≥ tp)) = true
    rw [if_neg htp0]
    exact decide_eq_true hc
  rw [hguard]
  rfl

/-- Claim C7 witness: entry 1, take-profit 2, stop-loss 5, price 3 satisfies
both conditions and exits with `TakeProfit`. -/
theorem takeProfit_priority_witness :
    (shouldExit c7wpos 3 0).2 =
      { shouldExit := true, reason := some ExitReason.takeProfit, urgency := Urgency.high } :=
  takeProfit_priority_over_stopLoss c7wpos 3 0 2 5 rfl rfl (by norm_num) rfl (by norm_num)
    (by norm_num)

/-- Claim C8 (confirmed): a run of rate-limited attempts followed by a
success returns the success after sleeping `retryDelay × 2^(attempt−1)`
before each retry; a non-rate-limit error at any attempt propagates
immediately with no further delay; and when every one of the `maxRetries`
attempts is rate-limited, the loop sleeps after each attempt but the last and
surfaces the last (rate-limit) error. -/
theorem executeRPCCall_retry_behavior :
    ∀ (α : Type) (cfg : RateLimiterConfig) (call : ℕ → RPCOutcome α),
      1 ≤ cfg.maxRetries →
      (∀ (v : α) (k : ℕ), k < cfg.maxRetries →
        (∀ i, 1 ≤ i → i ≤ k → call i = RPCOutcome.err true) →
        call (k + 1) = RPCOutcome.ok v →
        executeRPCCall cfg call =
          (Except.ok v, (List.range' 1 k).map (fun i => cfg.retryDelay * 2 ^ (i - 1))))
      ∧ (∀ k : ℕ, k < cfg.maxRetries →
        (∀ i, 1 ≤ i → i ≤ k → call i = RPCOutcome.err true) →
        call (k + 1) = RPCOutcome.err false →
        executeRPCCall cfg call =
          (Except.error (RPCFailure.thrown false),
            (List.range' 1 k).map (fun i => cfg.retryDelay * 2 ^ (i - 1))))
      ∧ ((∀ i, 1 ≤ i → i ≤ cfg.maxRetries → call i = RPCOutcome.err true) →
        executeRPCCall cfg call =
          (Except.error (RPCFailure.thrown true),
            (List.range' 1 (cfg.maxRetries - 1)).map (fun i => cfg.retryDelay * 2 ^ (i - 1)))) := by
  intro α cfg call hmax
  have hskip := executeLoop_skip cfg call
  refine ⟨?_, ?_, ?_⟩
  · intro v k hk hpre hcall
    unfold executeRPCCall
    rw [hskip k 1 cfg.maxRetries hk (by omega) (fun i h1 h2 => hpre i h1 (by omega))]
    obtain ⟨m, hm⟩ : ∃ m, cfg.maxRetries - k = m + 1 := ⟨cfg.maxRetries - k - 1, by omega⟩
    have h1k : 1 + k = k + 1 := by omega
    rw [hm, h1k, executeLoop_ok_step cfg call (k + 1) m v hcall]
    simp
  · intro k hk hpre hcall
    unfold executeRPCCall
    rw [hskip k 1 cfg.maxRetries hk (by omega) (fun i h1 h2 => hpre i h1 (by omega))]
    obtain ⟨m, hm⟩ : ∃ m, cfg.maxRetries - k = m + 1 := ⟨cfg.maxRetries - k - 1, by omega⟩
    have h1k : 1 + k = k + 1 := by omega
    rw [hm, h1k, executeLoop_errOther_step cfg call (k + 1) m hcall]
    simp
  · intro hpre
    unfold executeRPCCall
    rw [hskip (cfg.maxRetries - 1) 1 cfg.maxRetries (by omega) (by omega)
      (fun i h1 h2 => hpre i h1 (by omega))]
    have h1 : 1 + (cfg.maxRetries - 1) = cfg.maxRetries := by omega
    have h2 : cfg.maxRetries - (cfg.maxRetries - 1) = 1 := by omega
    rw [h1, h2]
    have hlast : call cfg.maxRetries = RPCOutcome.err true := hpre cfg.maxRetries hmax le_rfl
    rw [show (1 : ℕ) = 0 + 1 from rfl, executeLoop_err429_step cfg call cfg.maxRetries 0 hlast,
      if_neg (lt_irrefl cfg.maxRetries)]
    simp

/-- Claim C8 witness: with `retryDelay = 2000` and `maxRetries = 3`, one 429
followed by a success returns the value after a single 2000 ms backoff. -/
theorem executeRPCCall_retry_witness :
    executeRPCCall ⟨20, 5, 2000, 3⟩ c8call = (Except.ok 7, [2000]) := by
  have h := (executeRPCCall_retry_behavior ℕ ⟨20, 5, 2000, 3⟩ c8call (by norm_num)).1 7 1
    (by norm_num)
    (fun i h1 h2 => by
      have : i = 1 := le_antisymm h2 h1
      subst this
      rfl)
    rfl
  simpa using h

/-- Claim C9 (confirmed): with `requestsPerSecond = 2` and three calls issued
at time 0, the first two proceed immediately and the third sleeps until
time 1000 — at least one second after the first call's timestamp 0. -/
theorem rateLimit_third_call_delayed :
    waitForRateLimit 2 [] 0 = ([0], 0)
    ∧ waitForRateLimit 2 [0] 0 = ([0, 0], 0)
    ∧ waitForRateLimit 2 [0, 0] 0 = ([0, 0, 1000], 1000)
    ∧ (0 : ℤ) + 1000 ≤ 1000 := by
  decide

/-- Claim C10 (confirmed): for positive reserves, `calculatePrice` returns
`(virtualSolReserves / 1e9) / (virtualTokenReserves / 1e6)` and that price
times the token reserves in display units equals the native-currency reserves
in display units exactly (the model uses exact rationals); if either reserve
is ≤ 0 it fails with the invalid-reserves error. -/
theorem calculatePrice_spec :
    ∀ state : BondingCurveState,
      (0 < state.virtualSolReserves → 0 < state.virtualTokenReserves →
        calculatePrice state = Except.ok
          (((state.virtualSolReserves : ℚ) / LAMPORTS_PER_SOL) /
            ((state.virtualTokenReserves : ℚ) / 10 ^ TOKEN_DECIMALS))
        ∧ ∀ q : ℚ, calculatePrice state = Except.ok q →
            q * ((state.virtualTokenReserves : ℚ) / 10 ^ TOKEN_DECIMALS) =
              (state.virtualSolReserves : ℚ) / LAMPORTS_PER_SOL)
      ∧ (state.virtualTokenReserves ≤ 0 ∨ state.virtualSolReserves ≤ 0 →
        calculatePrice state = Except.error CurveError.invalidReserves) := by
  intro state
  constructor
  · intro hsol htok
    have hcond : ¬(state.virtualTokenReserves ≤ 0 ∨ state.virtualSolReserves ≤ 0) := by
      push_neg
      exact ⟨htok, hsol⟩
    have hok : calculatePrice state = Except.ok
        (((state.virtualSolReserves : ℚ) / LAMPORTS_PER_SOL) /
          ((state.virtualTokenReserves : ℚ) / 10 ^ TOKEN_DECIMALS)) := by
      unfold calculatePrice
      rw [if_neg hcond]
    refine ⟨hok, ?_⟩
    intro q hq
    rw [hok] at hq
    obtain rfl := Except.ok.inj hq
    have htok' : ((state.virtualTokenReserves : ℚ) / 10 ^ TOKEN_DECIMALS) ≠ 0 := by
      apply div_ne_zero
      · exact_mod_cast ne_of_gt htok
      · norm_num [TOKEN_DECIMALS]
    exact div_mul_cancel₀ _ htok'
  · intro hbad
    unfold calculatePrice
    rw [if_pos hbad]

/-- Claim C10 witness: reserves 3e9 native / 2e6 token give the stated price,
and zeroing the token reserves yields the invalid-reserves error. -/
theorem calculatePrice_witness :
    calculatePrice c10state = Except.ok
      (((c10state.virtualSolReserves : ℚ) / LAMPORTS_PER_SOL) /
        ((c10state.virtualTokenReserves : ℚ) / 10 ^ TOKEN_DECIMALS))
    ∧ calculatePrice { c10state with virtualTokenReserves := 0 } =
        Except.error CurveError.invalidReserves :=
  ⟨((calculatePrice_spec c10state).1 (by decide) (by decide)).1,
   (calculatePrice_spec _).2 (Or.inl (by decide))⟩

end Solbolt
